import Mathlib

/-!
Shallow embedding of the lighthouse batch-audit tool
(`src/results-parser.ts` and `src/index.ts`).

Modelling conventions:
* JS numbers are modelled as exact rationals `ℚ`; `Math.sqrt` is modelled by
  `Real.sqrt` on the exact value.  `NaN` has no `ℚ` counterpart; where the
  source can produce `undefined`/`NaN` results (out-of-range indexing,
  statistics of an empty array) the model returns `Option`/`none`.
* JS objects/`Map`s are modelled as association lists in key-insertion order,
  which is exactly the iteration order of `Object.entries` and of a JS `Map`.
* `Array.prototype.sort()` with no comparator converts elements to strings and
  compares them by UTF-16 code units; the string order is modelled by the
  lexicographic `LinearOrder` on `String`.  `String.localeCompare` is likewise
  modelled by that order (audit names are plain ASCII identifiers).
* `Array.prototype.sort` mutates its receiver in place; the model threads the
  sorted array explicitly where that mutation is observable (`summarizeSeries`).
-/

namespace LighthouseTool

/-- One entry of `result.audits`: an audit object carrying an optional
`numericValue` (absent for non-numeric audits). -/
structure AuditResult where
  numericValue : Option ℚ
deriving DecidableEq

/-- The lighthouse result object (`lhr`).  `runtimeError` models the truthiness
of `lhr.runtimeError`; `audits` models `Object.entries(result.audits)` as an
association list in key-insertion order (object keys are unique). -/
structure Result where
  runtimeError : Bool
  audits : List (String × AuditResult)
deriving DecidableEq

/-- Insert `a` in front of the first element `b` of an ascending list with
`le a b`; one step of a stable insertion sort. -/
def insertBy (le : α → α → Bool) (a : α) : List α → List α
  | [] => [a]
  | b :: bs => if le a b then a :: b :: bs else b :: insertBy le a bs

/-- Stable ascending sort by the comparator `le`; models the observable
behaviour of `Array.prototype.sort` (stable since ES2019). -/
def sortBy (le : α → α → Bool) : List α → List α
  | [] => []
  | a :: rest => insertBy le a (sortBy le rest)

/-- Lexicographic comparison of character lists by code point, the order JS
uses for `string1 < string2` (identical to UTF-16 code-unit order on the
ASCII/BMP characters that occur here). -/
def lexLe : List Char → List Char → Bool
  | [], _ => true
  | _ :: _, [] => false
  | a :: rest, b :: bs =>
    if a.toNat < b.toNat then true
    else if b.toNat < a.toNat then false
    else lexLe rest bs

/-- Lexicographic string comparison, the JS relational comparison on strings
(also the model of `localeCompare` ≤ 0 on the plain ASCII audit names). -/
def strLe (a b : String) : Bool := lexLe a.data b.data

/-- JS `String(n)` on a number, as used by the default `Array.prototype.sort`
comparator and by `Array.prototype.join`.  Exact for integers, the only values
any theorem below evaluates it at; non-integral rationals get a total fallback
rendering (JS would print a decimal float expansion there), on which no
statement in this file depends. -/
def jsNumToString (q : ℚ) : String :=
  if q.den = 1 then toString q.num
  else toString q.num ++ "/" ++ toString q.den

/-- The comparator of the default JS sort on numbers: compare
`String(a)` with `String(b)` lexicographically by code units. -/
def jsNumLe (a b : ℚ) : Bool := strLe (jsNumToString a) (jsNumToString b)

/-- `values.sort()` — JS default sort, i.e. lexicographic on the decimal
string forms of the numbers (the source passes no numeric comparator). -/
def jsSortNumbers (values : List ℚ) : List ℚ :=
  sortBy jsNumLe values

/-- `calculateAverage` (results-parser.ts:43-45):
`values.reduce((a, b) => a + b, 0) / values.length`.  For the empty list JS
yields `0 / 0 = NaN`; in `ℚ` the same expression yields `0`.  Every claim about
it concerns non-empty series. -/
def calculateAverage (values : List ℚ) : ℚ :=
  values.foldl (· + ·) 0 / values.length

/-- `calculateMedian` (results-parser.ts:47-54).  `values.sort()` is the
default lexicographic sort; `Math.floor(length / 2)` is `Nat` division.
Out-of-range indexing (empty input) is modelled by `none` (JS: `NaN`). -/
def calculateMedian (values : List ℚ) : Option ℚ :=
  let sorted := jsSortNumbers values
  let middle := sorted.length / 2
  if sorted.length % 2 = 0 then
    match sorted.get? (middle - 1), sorted.get? middle with
    | some a, some b => some ((a + b) / 2)
    | _, _ => none
  else sorted.get? middle

/-- `calculateStandardDeviation` (results-parser.ts:56-61): square root of the
average of the squared deviations from the average (population convention). -/
noncomputable def calculateStandardDeviation (values : List ℚ) : ℝ :=
  Real.sqrt ((calculateAverage (values.map fun value => (value - calculateAverage values) ^ 2) : ℚ) : ℝ)

/-- `calculatePercentile` (results-parser.ts:63-67): default (lexicographic)
sort, then read `sorted[Math.ceil((percentile / 100) * sorted.length)]` with
no clamping.  `none` models the `undefined` read past the end of the array
(and a negative index, which cannot arise for the percentiles 95 and 99). -/
def calculatePercentile (values : List ℚ) (percentile : ℚ) : Option ℚ :=
  let sorted := jsSortNumbers values
  let index : ℤ := ⌈percentile / 100 * (sorted.length : ℚ)⌉
  if index < 0 then none else sorted.get? index.toNat

/-- `calculateMinMax` (results-parser.ts:69-74): `Math.min(...values)` and
`Math.max(...values)`.  `none` models the `Infinity` / `-Infinity` results on
an empty argument list. -/
def calculateMinMax (values : List ℚ) : Option ℚ × Option ℚ :=
  (values.min?, values.max?)

/-- `calculateSpread` (results-parser.ts:76-79): `max - min`; `none` models the
non-finite result on an empty series. -/
def calculateSpread (values : List ℚ) : Option ℚ :=
  match calculateMinMax values with
  | (some mn, some mx) => some (mx - mn)
  | _ => none

/-- `calculateEmpiricalVariance` (results-parser.ts:81-85): despite the name,
the mean of the absolute deviations from the average. -/
def calculateEmpiricalVariance (values : List ℚ) : ℚ :=
  calculateAverage (values.map fun value => |value - calculateAverage values|)

/-- A JS number result that may be non-finite: `NaN` and the two infinities
arise here from division by zero. -/
inductive JsVal where
  | num (x : ℝ)
  | nan
  | inf
  | ninf

/-- A `JsVal` is finite when it is an ordinary number. -/
def JsVal.isFinite : JsVal → Prop
  | JsVal.num _ => True
  | _ => False

open Classical in
/-- JS division `a / b` on (finite) numbers: division by (positive) zero gives
`NaN` when the dividend is zero and `±Infinity` otherwise; it never throws,
which is why this model is a total function. -/
noncomputable def jsDiv (a b : ℝ) : JsVal :=
  if b = 0 then
    if a = 0 then JsVal.nan else if 0 < a then JsVal.inf else JsVal.ninf
  else JsVal.num (a / b)

/-- JS multiplication of a (possibly non-finite) value by the positive constant
`100`: `NaN * 100 = NaN`, `±Infinity * 100 = ±Infinity`. -/
def jsMul100 : JsVal → JsVal
  | JsVal.num x => JsVal.num (x * 100)
  | v => v

/-- `calculateVariationCoefficient` (results-parser.ts:87-91):
`(standardDeviation / average) * 100` with JS division semantics. -/
noncomputable def calculateVariationCoefficient (values : List ℚ) : JsVal :=
  jsMul100 (jsDiv (calculateStandardDeviation values) ((calculateAverage values : ℚ) : ℝ))

/-- Push one numeric value onto the series of `audit` in the grouping map
(results-parser.ts:10-13): `Map.set` keeps the position of an existing key and
appends a fresh key at the end, matching JS `Map` insertion-order iteration. -/
def pushValue (m : List (String × List ℚ)) (audit : String) (v : ℚ) :
    List (String × List ℚ) :=
  if m.any fun p => p.1 = audit then
    m.map fun p => if p.1 = audit then (p.1, p.2 ++ [v]) else p
  else m ++ [(audit, [v])]

/-- The series-building phase of `parseResults` (results-parser.ts:6-16).  The
guard is the source's `if (auditResult.numericValue)`: a JS truthiness test,
so an absent value and the number `0` are both skipped (`NaN`, also falsy, has
no counterpart in this exact-number model). -/
def collectSeries (results : List Result) : List (String × List ℚ) :=
  results.foldl
    (fun m result =>
      result.audits.foldl
        (fun m p =>
          match p.2.numericValue with
          | some v => if v = 0 then m else pushValue m p.1 v
          | none => m)
        m)
    []

/-- The per-metric summary object built at results-parser.ts:19-30. -/
structure MetricSummary where
  average : ℚ
  median : Option ℚ
  standardDeviation : ℝ
  percentile95 : Option ℚ
  percentile99 : Option ℚ
  minMax : Option ℚ × Option ℚ
  spread : Option ℚ
  empiricalVariance : ℚ
  variationCoefficient : JsVal
  values : List ℚ

/-- Build one `MetricSummary` from one series, field by field in the source's
evaluation order.  `values.sort()` inside `calculateMedian` and
`calculatePercentile` sorts the shared array in place, so every field computed
after the median sees the lexicographically sorted array, and the final
`values` field stores the mutated (sorted) array — the model threads the
post-sort array states explicitly. -/
noncomputable def summarizeSeries (values : List ℚ) : MetricSummary :=
  let afterMedianSort := jsSortNumbers values
  let afterP95Sort := jsSortNumbers afterMedianSort
  let afterP99Sort := jsSortNumbers afterP95Sort
  { average := calculateAverage values
  , median := calculateMedian values
  , standardDeviation := calculateStandardDeviation afterMedianSort
  , percentile95 := calculatePercentile afterMedianSort 95
  , percentile99 := calculatePercentile afterP95Sort 99
  , minMax := calculateMinMax afterP99Sort
  , spread := calculateSpread afterP99Sort
  , empiricalVariance := calculateEmpiricalVariance afterP99Sort
  , variationCoefficient := calculateVariationCoefficient afterP99Sort
  , values := afterP99Sort }

/-- `parseResults` (results-parser.ts:3-34): group numeric values by audit
name, then map every collected series to its summary; the result object's keys
are in series-insertion order. -/
noncomputable def parseResults (results : List Result) :
    List (String × MetricSummary) :=
  (collectSeries results).map fun p => (p.1, summarizeSeries p.2)

/-- The `numericAudits` list of `resultToCsv` (results-parser.ts:94): sort the
audit entries by name (`localeCompare`, modelled by the lexicographic string
order) and keep those whose `numericValue !== undefined` — an explicit
definedness test, so a value of `0` is kept. -/
def numericAudits (r : Result) : List (String × AuditResult) :=
  (sortBy (fun a b => strLe a.1 b.1) r.audits).filter
    fun p => p.2.numericValue.isSome

/-- `resultToCsv` (results-parser.ts:93-102): the comma-joined header line of
audit names and the comma-joined line of their numeric values, in the same
(sorted) column order. -/
def resultToCsv (r : Result) : String × String :=
  (String.intercalate "," ((numericAudits r).map Prod.fst),
   String.intercalate "," ((numericAudits r).map fun p =>
     jsNumToString (p.2.numericValue.getD 0)))

/-- What the external `lighthouse(...)` call yields when it returns a value:
the result object `lhr` and the raw `report` document. -/
structure RunnerResult where
  lhr : Result
  report : String
deriving DecidableEq

/-- Observable events of the run loop: a progress-bar increment
(`runBar.increment()`) and the acceptance of one run
(`results.push(runnerResult.lhr)`). -/
inductive RunEvent where
  | increment
  | accept (r : Result)
deriving DecidableEq

/-- The run loop of index.ts:131-158 for one (page × throttling) combination,
driven by the external sequence of audit outcomes (`none` models a missing
runner result).  The loop body first increments the run progress bar, then
performs the attempt; on `!runnerResult || runnerResult.lhr.runtimeError` it
does `i--; continue`, i.e. the remaining quota is unchanged and nothing is
accepted.  The subsequent `if (!runnerResult) throw` in the source is dead
code (already handled by the retry guard) and has no counterpart here.
Returns the accepted results in acceptance order together with the event
trace. -/
def runLoop : List (Option RunnerResult) → Nat → List Result × List RunEvent
  | _, 0 => ([], [])
  | [], _ + 1 => ([], [])
  | attempt :: rest, remaining + 1 =>
    match attempt with
    | none =>
      let p := runLoop rest (remaining + 1)
      (p.1, RunEvent.increment :: p.2)
    | some rr =>
      if rr.lhr.runtimeError then
        let p := runLoop rest (remaining + 1)
        (p.1, RunEvent.increment :: p.2)
      else
        let p := runLoop rest remaining
        (rr.lhr :: p.1, RunEvent.increment :: RunEvent.accept rr.lhr :: p.2)

/-- The accepted record of one audit attempt, if any: an attempt succeeds
exactly when a runner result is present and reports no runtime error. -/
def attemptSuccess : Option RunnerResult → Option Result
  | none => none
  | some rr => if rr.lhr.runtimeError then none else some rr.lhr

/-- Textbook median as the spec words it: sort ascending by numeric value,
middle element for odd length, mean of the two central elements for even
length.  Used only to compare the source's median against the spec. -/
def specNumericMedian (values : List ℚ) : Option ℚ :=
  let sorted := sortBy (fun a b : ℚ => decide (a ≤ b)) values
  let middle := sorted.length / 2
  if sorted.length % 2 = 0 then
    match sorted.get? (middle - 1), sorted.get? middle with
    | some a, some b => some ((a + b) / 2)
    | _, _ => none
  else sorted.get? middle

/-- Textbook population standard deviation as the spec words it: the square
root of the mean of the squared deviations from the arithmetic mean, dividing
by the length (not length − 1). -/
noncomputable def specPopulationStdDev (values : List ℚ) : ℝ :=
  Real.sqrt
    (((values.map fun v => (v - values.sum / values.length) ^ 2).sum /
        values.length : ℚ) : ℝ)

/-- A sample run record for exercising the CSV flattening: emission order
`b, a, c`; `a` carries the numeric value `0`, `c` carries no numeric value. -/
def csvSample : Result :=
  ⟨false, [("b", ⟨some 1⟩), ("a", ⟨some 0⟩), ("c", ⟨none⟩)]⟩

/-! ## General lemmas about the sorting model -/

theorem lexLe_cons_iff (a b : Char) (rest bs : List Char) :
    lexLe (a :: rest) (b :: bs) = true ↔
      a.toNat < b.toNat ∨ (a.toNat = b.toNat ∧ lexLe rest bs = true) := by
  simp only [lexLe]
  rcases Nat.lt_trichotomy a.toNat b.toNat with h | h | h
  · simp [h]
  · have h1 : ¬ a.toNat < b.toNat := by omega
    have h2 : ¬ b.toNat < a.toNat := by omega
    simp [h1, h2, h]
  · have h1 : ¬ a.toNat < b.toNat := by omega
    simp [h1, h]
    omega

theorem lexLe_total : ∀ a b : List Char, lexLe a b = true ∨ lexLe b a = true
  | [], _ => Or.inl rfl
  | _ :: _, [] => Or.inr rfl
  | a :: rest, b :: bs => by
    rw [lexLe_cons_iff, lexLe_cons_iff]
    rcases Nat.lt_trichotomy a.toNat b.toNat with h | h | h
    · exact Or.inl (Or.inl h)
    · rcases lexLe_total rest bs with ih | ih
      · exact Or.inl (Or.inr ⟨h, ih⟩)
      · exact Or.inr (Or.inr ⟨h.symm, ih⟩)
    · exact Or.inr (Or.inl h)

theorem lexLe_trans : ∀ a b c : List Char,
    lexLe a b = true → lexLe b c = true → lexLe a c = true
  | [], _, _, _, _ => rfl
  | _ :: _, [], _, h, _ => by simp [lexLe] at h
  | _ :: _, _ :: _, [], _, h => by simp [lexLe] at h
  | a :: rest, b :: bs, c :: cs, h1, h2 => by
    rw [lexLe_cons_iff] at h1 h2 ⊢
    rcases h1 with h1 | ⟨h1e, h1t⟩
    · rcases h2 with h2 | ⟨h2e, _⟩
      · exact Or.inl (by omega)
      · exact Or.inl (by omega)
    · rcases h2 with h2 | ⟨h2e, h2t⟩
      · exact Or.inl (by omega)
      · exact Or.inr ⟨by omega, lexLe_trans rest bs cs h1t h2t⟩

theorem lexLe_antisymm : ∀ a b : List Char,
    lexLe a b = true → lexLe b a = true → a = b
  | [], [], _, _ => rfl
  | [], _ :: _, _, h => by simp [lexLe] at h
  | _ :: _, [], h, _ => by simp [lexLe] at h
  | a :: rest, b :: bs, h1, h2 => by
    rw [lexLe_cons_iff] at h1 h2
    rcases h1 with h1 | ⟨h1e, h1t⟩
    · rcases h2 with h2 | ⟨h2e, _⟩
      · exact absurd h1 (by omega)
      · exact absurd h1 (by omega)
    · rcases h2 with h2 | ⟨h2e, h2t⟩
      · exact absurd h2 (by omega)
      · have hc : a = b := Char.ext (UInt32.ext h1e)
        have ht : rest = bs := lexLe_antisymm rest bs h1t h2t
        rw [hc, ht]

theorem strLe_total (a b : String) : strLe a b = true ∨ strLe b a = true :=
  lexLe_total a.data b.data

theorem strLe_trans {a b c : String} (h1 : strLe a b = true)
    (h2 : strLe b c = true) : strLe a c = true :=
  lexLe_trans a.data b.data c.data h1 h2

theorem strLe_antisymm {a b : String} (h1 : strLe a b = true)
    (h2 : strLe b a = true) : a = b := by
  have h := lexLe_antisymm a.data b.data h1 h2
  cases a
  cases b
  exact congrArg String.mk h

theorem insertBy_perm (le : α → α → Bool) (a : α) :
    ∀ l : List α, (insertBy le a l).Perm (a :: l)
  | [] => by simp [insertBy]
  | b :: bs => by
    simp only [insertBy]
    split
    · exact List.Perm.refl _
    · exact ((insertBy_perm le a bs).cons b).trans (List.Perm.swap a b bs)

theorem sortBy_perm (le : α → α → Bool) : ∀ l : List α, (sortBy le l).Perm l
  | [] => List.Perm.refl _
  | a :: rest =>
    (insertBy_perm le a (sortBy le rest)).trans ((sortBy_perm le rest).cons a)

theorem insertBy_pairwise {le : α → α → Bool}
    (htrans : ∀ x y z, le x y = true → le y z = true → le x z = true)
    (htot : ∀ x y, le x y = true ∨ le y x = true) (a : α) :
    ∀ {l : List α}, l.Pairwise (fun x y => le x y = true) →
      (insertBy le a l).Pairwise (fun x y => le x y = true)
  | [], _ => by simp [insertBy]
  | b :: bs, h => by
    rw [List.pairwise_cons] at h
    simp only [insertBy]
    split
    · rename_i hab
      rw [List.pairwise_cons]
      refine ⟨?_, List.pairwise_cons.mpr h⟩
      intro x hx
      rcases List.mem_cons.mp hx with rfl | hx
      · exact hab
      · exact htrans a b x hab (h.1 x hx)
    · rename_i hab
      rw [List.pairwise_cons]
      refine ⟨?_, insertBy_pairwise htrans htot a h.2⟩
      intro x hx
      rcases List.mem_cons.mp ((insertBy_perm le a bs).mem_iff.mp hx) with rfl | hx
      · rcases htot x b with hxb | hbx
        · exact absurd hxb hab
        · exact hbx
      · exact h.1 x hx

theorem sortBy_pairwise {le : α → α → Bool}
    (htrans : ∀ x y z, le x y = true → le y z = true → le x z = true)
    (htot : ∀ x y, le x y = true ∨ le y x = true) :
    ∀ l : List α, (sortBy le l).Pairwise (fun x y => le x y = true)
  | [] => List.Pairwise.nil
  | a :: rest => insertBy_pairwise htrans htot a (sortBy_pairwise htrans htot rest)

theorem pairwise_key_strict (k : α → String) {l : List α}
    (hle : l.Pairwise (fun x y => strLe (k x) (k y) = true))
    (hnd : (l.map k).Nodup) :
    l.Pairwise (fun x y => strLe (k x) (k y) = true ∧ k x ≠ k y) := by
  have hne : l.Pairwise (fun x y => k x ≠ k y) :=
    List.pairwise_map.mp (hnd : (l.map k).Pairwise (· ≠ ·))
  exact hle.and hne

theorem sortBy_key_eq_of_perm (k : α → String)
    {l₁ l₂ : List α} (hp : l₁.Perm l₂) (hnd : (l₂.map k).Nodup) :
    sortBy (fun a b => strLe (k a) (k b)) l₁ =
      sortBy (fun a b => strLe (k a) (k b)) l₂ := by
  have htrans : ∀ x y z : α, strLe (k x) (k y) = true →
      strLe (k y) (k z) = true → strLe (k x) (k z) = true :=
    fun x y z hxy hyz => strLe_trans hxy hyz
  have htot : ∀ x y : α, strLe (k x) (k y) = true ∨ strLe (k y) (k x) = true :=
    fun x y => strLe_total _ _
  have hs₁ := sortBy_pairwise htrans htot l₁
  have hs₂ := sortBy_pairwise htrans htot l₂
  have hperm : (sortBy (fun a b => strLe (k a) (k b)) l₁).Perm
      (sortBy (fun a b => strLe (k a) (k b)) l₂) :=
    (sortBy_perm _ l₁).trans (hp.trans (sortBy_perm _ l₂).symm)
  have hnd₂ : ((sortBy (fun a b => strLe (k a) (k b)) l₂).map k).Nodup :=
    ((sortBy_perm _ l₂).map k).nodup_iff.mpr hnd
  have hnd₁ : ((sortBy (fun a b => strLe (k a) (k b)) l₁).map k).Nodup :=
    (hperm.map k).nodup_iff.mpr hnd₂
  haveI : IsAntisymm α fun x y => strLe (k x) (k y) = true ∧ k x ≠ k y :=
    ⟨fun x y h1 h2 => absurd (strLe_antisymm h1.1 h2.1) h1.2⟩
  exact List.eq_of_perm_of_sorted hperm
    (pairwise_key_strict k hs₁ hnd₁) (pairwise_key_strict k hs₂ hnd₂)

theorem foldl_add_from (l : List ℚ) : ∀ a : ℚ, l.foldl (· + ·) a = a + l.sum := by
  induction l with
  | nil => intro a; simp
  | cons x xs ih => intro a; simp [ih, add_assoc]

theorem calculateAverage_eq_sum_div (l : List ℚ) :
    calculateAverage l = l.sum / l.length := by
  simp [calculateAverage, foldl_add_from]

/-! ## Claim theorems -/

/-- C1 (counter-evidence): the aggregator's median does not match the textbook
median, because `values.sort()` sorts the numbers lexicographically by their
string forms.  On the series `[10, 2, 33]` the lexicographic order is already
`["10", "2", "33"]`, so the code returns `2`, while the textbook (numeric)
median of the same series is `10`. -/
theorem calculateMedian_lexicographic_on_10_2_33 :
    calculateMedian [10, 2, 33] = some 2 ∧
      specNumericMedian [10, 2, 33] = some 10 := by
  exact ⟨by decide, by decide⟩

/-- C2 (counter-evidence): `calculatePercentile` does not clamp the ceiling
index.  On the singleton series `[1]` both the 95th and the 99th percentile
compute index `⌈0.95⌉ = ⌈0.99⌉ = 1` and read past the end of the one-element
sorted array, producing `undefined` (`none`), not an element of the series. -/
theorem calculatePercentile_reads_past_end_on_singleton :
    calculatePercentile [1] 95 = none ∧ calculatePercentile [1] 99 = none := by
  have hs : jsSortNumbers [(1 : ℚ)] = [1] := by decide
  have h95 : (⌈(95 : ℚ) / 100⌉ : ℤ) = 1 := by
    rw [Int.ceil_eq_iff]
    norm_num
  have h99 : (⌈(99 : ℚ) / 100⌉ : ℤ) = 1 := by
    rw [Int.ceil_eq_iff]
    norm_num
  constructor <;> simp [calculatePercentile, hs, h95, h99]

/-- C3 (counter-evidence): the series-building guard
`if (auditResult.numericValue)` is a truthiness test, so a present numeric
value `0` is excluded from the metric's series.  Aggregating two runs with
values `0` and `10` for metric `m` yields the series `[10]` with average `10`;
the claimed two-value series `[0, 10]` would average `5`. -/
theorem zero_value_excluded_from_series :
    collectSeries [⟨false, [("m", ⟨some 0⟩)]⟩, ⟨false, [("m", ⟨some 10⟩)]⟩] =
        [("m", [10])] ∧
      calculateAverage [10] = 10 ∧ calculateAverage [0, 10] = 5 := by
  refine ⟨by decide, ?_, ?_⟩ <;> norm_num [calculateAverage]

/-- C5 (counter-evidence): a metric whose only occurrences are the numeric
value `0` is omitted from the batch result even though a run record
contributes a (defined) numeric value for it; and a metric appearing with a
defined numeric value in 2 of 2 records can get a series of length 1, because
the truthiness guard drops the zero occurrence. -/
theorem zero_valued_metric_omitted :
    parseResults [⟨false, [("m", ⟨some 0⟩)]⟩] = [] ∧
      (collectSeries [⟨false, [("m", ⟨some 0⟩)]⟩, ⟨false, [("m", ⟨some 7⟩)]⟩]).map
          (fun p => (p.1, p.2.length)) = [("m", 1)] := by
  constructor
  · have h : collectSeries [⟨false, [("m", ⟨some 0⟩)]⟩] = [] := by decide
    simp [parseResults, h]
  · decide

/-- C6 (counter-evidence): the `values` field of a metric summary is not in
insertion order.  `values.sort()` inside `calculateMedian` (and the percentile
calls) sorts the shared array in place, so for the series inserted as
`[2, 10]` the summary's `values` field holds the lexicographically sorted
array `[10, 2]` (string `"10"` sorts before `"2"`). -/
theorem values_field_mutated_to_sorted_order :
    collectSeries [⟨false, [("m", ⟨some 2⟩)]⟩, ⟨false, [("m", ⟨some 10⟩)]⟩] =
        [("m", [2, 10])] ∧
      (parseResults [⟨false, [("m", ⟨some 2⟩)]⟩, ⟨false, [("m", ⟨some 10⟩)]⟩]).map
          (fun p => (p.1, p.2.values)) = [("m", [10, 2])] := by
  constructor
  · decide
  · have h : collectSeries [⟨false, [("m", ⟨some 2⟩)]⟩, ⟨false, [("m", ⟨some 10⟩)]⟩] =
        [("m", [2, 10])] := by decide
    have hv : jsSortNumbers (jsSortNumbers (jsSortNumbers [2, 10])) = [10, 2] := by
      decide
    simp [parseResults, h, summarizeSeries, hv]

/-- C4: for any external sequence of audit-attempt outcomes and any quota
`n = runsPerPage`, the run loop accepts exactly the first `n` successful
outcomes in order (an attempt with no runner result or with a runtime error is
retried without consuming quota), and whenever the outcome sequence holds at
least `n` successes the loop terminates with exactly `n` accepted run
records. -/
theorem runLoop_accepts_first_n_successes :
    ∀ (attempts : List (Option RunnerResult)) (n : Nat),
      (runLoop attempts n).1 = (attempts.filterMap attemptSuccess).take n ∧
      (n ≤ (attempts.filterMap attemptSuccess).length →
        ((runLoop attempts n).1).length = n) := by
  have key : ∀ (attempts : List (Option RunnerResult)) (n : Nat),
      (runLoop attempts n).1 = (attempts.filterMap attemptSuccess).take n := by
    intro attempts
    induction attempts with
    | nil =>
      intro n
      cases n <;> simp [runLoop]
    | cons a rest ih =>
      intro n
      cases n with
      | zero => simp [runLoop]
      | succ m =>
        cases a with
        | none => simpa [runLoop, attemptSuccess] using ih (m + 1)
        | some rr =>
          by_cases herr : rr.lhr.runtimeError
          · simpa [runLoop, herr, attemptSuccess] using ih (m + 1)
          · simpa [runLoop, herr, attemptSuccess] using ih m
  intro attempts n
  refine ⟨key attempts n, fun h => ?_⟩
  rw [key attempts n, List.length_take]
  omega

/-- Witness for C4 at the spec's retry example: two runtime-error attempts
followed by one success, quota 1 — exactly one record is accepted. -/
theorem runLoop_accepts_first_n_successes_witness :
    1 ≤ (([some ⟨⟨true, []⟩, "a"⟩, some ⟨⟨true, []⟩, "a"⟩,
            some ⟨⟨false, [("m", ⟨some 1⟩)]⟩, "a"⟩] :
          List (Option RunnerResult)).filterMap attemptSuccess).length ∧
      ((runLoop [some ⟨⟨true, []⟩, "a"⟩, some ⟨⟨true, []⟩, "a"⟩,
            some ⟨⟨false, [("m", ⟨some 1⟩)]⟩, "a"⟩] 1).1).length = 1 :=
  ⟨by decide,
    (runLoop_accepts_first_n_successes
      [some ⟨⟨true, []⟩, "a"⟩, some ⟨⟨true, []⟩, "a"⟩,
        some ⟨⟨false, [("m", ⟨some 1⟩)]⟩, "a"⟩] 1).2 (by decide)⟩

/-- C8 (counter-evidence): `runBar.increment()` is the first statement of the
loop body, so the increment signal fires before the attempt and fires for
failed attempts too.  With two runtime-error attempts followed by one success
and quota 1, the observable trace carries three increment signals for a single
accepted run, and the increment associated with the accepted run precedes the
acceptance event — not one increment per accepted run delivered after it. -/
theorem increment_fires_per_attempt_before_acceptance :
    (runLoop [some ⟨⟨true, []⟩, "b"⟩, some ⟨⟨true, []⟩, "b"⟩,
        some ⟨⟨false, [("m", ⟨some 1⟩)]⟩, "b"⟩] 1).2 =
      [RunEvent.increment, RunEvent.increment, RunEvent.increment,
        RunEvent.accept ⟨false, [("m", ⟨some 1⟩)]⟩] ∧
      (runLoop [some ⟨⟨true, []⟩, "b"⟩, some ⟨⟨true, []⟩, "b"⟩,
          some ⟨⟨false, [("m", ⟨some 1⟩)]⟩, "b"⟩] 1).1 =
        [⟨false, [("m", ⟨some 1⟩)]⟩] := by
  exact ⟨by decide, by decide⟩

/-- C7: for every run record (with the JS object-key invariant that audit
names are unique), the CSV flattening selects exactly the audits with a
defined numeric value (a zero value is kept), orders the columns strictly
ascending by audit name in the lexicographic string order — independently of
the emission order — and emits a comma-joined header line and a comma-joined
value line that are position-for-position maps of the same column list. -/
theorem resultToCsv_selects_sorts_and_aligns (r : Result)
    (hnd : (r.audits.map Prod.fst).Nodup) :
    (∀ name : String, name ∈ (numericAudits r).map Prod.fst ↔
        ∃ a : AuditResult, (name, a) ∈ r.audits ∧ a.numericValue.isSome = true) ∧
      ((numericAudits r).map Prod.fst).Pairwise
        (fun a b => strLe a b = true ∧ a ≠ b) ∧
      resultToCsv r =
        (String.intercalate "," ((numericAudits r).map Prod.fst),
          String.intercalate "," ((numericAudits r).map fun p =>
            jsNumToString (p.2.numericValue.getD 0))) ∧
      (∀ s : Result, s.audits.Perm r.audits → resultToCsv s = resultToCsv r) := by
  refine ⟨?_, ?_, rfl, ?_⟩
  · intro name
    simp only [numericAudits, List.mem_map, List.mem_filter]
    constructor
    · rintro ⟨p, ⟨hmem, hsome⟩, rfl⟩
      refine ⟨p.2, ?_, hsome⟩
      have hp := (sortBy_perm (fun a b => strLe a.1 b.1) r.audits).mem_iff.mp hmem
      simpa using hp
    · rintro ⟨a, hmem, hsome⟩
      exact ⟨(name, a),
        ⟨(sortBy_perm (fun a b => strLe a.1 b.1) r.audits).mem_iff.mpr hmem, hsome⟩,
        rfl⟩
  · have htrans : ∀ x y z : String × AuditResult, strLe x.1 y.1 = true →
        strLe y.1 z.1 = true → strLe x.1 z.1 = true :=
      fun x y z h1 h2 => strLe_trans h1 h2
    have htot : ∀ x y : String × AuditResult,
        strLe x.1 y.1 = true ∨ strLe y.1 x.1 = true := fun x y => strLe_total _ _
    have hsorted := sortBy_pairwise htrans htot r.audits
    have hsub : List.Sublist (numericAudits r)
        (sortBy (fun a b => strLe a.1 b.1) r.audits) :=
      List.filter_sublist _
    have hpair : (numericAudits r).Pairwise (fun x y => strLe x.1 y.1 = true) :=
      hsorted.sublist hsub
    have hndsorted :
        ((sortBy (fun a b => strLe a.1 b.1) r.audits).map Prod.fst).Nodup :=
      ((sortBy_perm _ r.audits).map Prod.fst).nodup_iff.mpr hnd
    have hndcols : ((numericAudits r).map Prod.fst).Nodup :=
      hndsorted.sublist (hsub.map Prod.fst)
    exact List.pairwise_map.mpr (pairwise_key_strict Prod.fst hpair hndcols)
  · intro s hs
    have h := sortBy_key_eq_of_perm Prod.fst hs hnd
    simp [resultToCsv, numericAudits, h]

/-- Witness for C7 at a concrete record with emission order `b, a, c`, where
`a` carries the numeric value 0 and `c` carries none: the flattening keeps
zero-valued `a` and drops `c`, sorting the columns to `a,b` over `0,1`. -/
theorem resultToCsv_selects_sorts_and_aligns_witness :
    ((csvSample.audits.map Prod.fst).Nodup ∧
        resultToCsv csvSample = ("a,b", "0,1")) ∧
      ((numericAudits csvSample).map Prod.fst).Pairwise
        (fun a b => strLe a b = true ∧ a ≠ b) :=
  ⟨⟨by decide, by decide⟩,
    (resultToCsv_selects_sorts_and_aligns csvSample (by decide)).2.1⟩

/-- C9: the source's standard deviation is exactly the population standard
deviation — the square root of the mean of the squared deviations from the
arithmetic mean, dividing by N, not N − 1 — and on the constant series
`[5, 5, 5, 5]` both the standard deviation and the spread are 0. -/
theorem standardDeviation_is_population :
    (∀ values : List ℚ,
        calculateStandardDeviation values = specPopulationStdDev values) ∧
      calculateStandardDeviation [5, 5, 5, 5] = 0 ∧
      calculateSpread [5, 5, 5, 5] = some 0 := by
  refine ⟨fun values => ?_, ?_, ?_⟩
  · simp only [calculateStandardDeviation, specPopulationStdDev,
      calculateAverage_eq_sum_div, List.length_map]
  · have h : calculateAverage
        ([5, 5, 5, 5].map fun value =>
          (value - calculateAverage [5, 5, 5, 5]) ^ 2) = 0 := by
      norm_num [calculateAverage]
    simp only [calculateStandardDeviation, h, Rat.cast_zero, Real.sqrt_zero]
  · simp [calculateSpread, calculateMinMax, List.min?, List.max?]

/-- C10: whenever a non-empty series averages to zero, the variation
coefficient `(standardDeviation / average) * 100` evaluates — without any
exception, the model being a total function — to a non-finite JS value
(`NaN` or an infinity); for a non-zero average it is the ordinary number given
by that formula. -/
theorem variationCoefficient_nonfinite_on_zero_mean :
    ∀ values : List ℚ, values ≠ [] →
      (calculateAverage values = 0 →
        ¬ JsVal.isFinite (calculateVariationCoefficient values)) ∧
      (calculateAverage values ≠ 0 →
        calculateVariationCoefficient values =
          JsVal.num (calculateStandardDeviation values /
            ((calculateAverage values : ℚ) : ℝ) * 100)) := by
  intro values _
  constructor
  · intro h
    have h0 : ((calculateAverage values : ℚ) : ℝ) = 0 := by
      rw [h]
      exact Rat.cast_zero
    unfold calculateVariationCoefficient jsDiv
    rw [h0]
    split_ifs <;> simp_all [jsMul100, JsVal.isFinite]
  · intro h
    have h0 : ((calculateAverage values : ℚ) : ℝ) ≠ 0 := by
      exact_mod_cast h
    unfold calculateVariationCoefficient jsDiv
    rw [if_neg h0]
    rfl

/-- Witness for C10 on the singleton zero series: it is non-empty, averages to
zero, and its variation coefficient is non-finite. -/
theorem variationCoefficient_nonfinite_witness :
    (([(0 : ℚ)] : List ℚ) ≠ [] ∧ calculateAverage [(0 : ℚ)] = 0) ∧
      ¬ JsVal.isFinite (calculateVariationCoefficient [(0 : ℚ)]) :=
  ⟨⟨by decide, by norm_num [calculateAverage]⟩,
    (variationCoefficient_nonfinite_on_zero_mean [(0 : ℚ)] (by decide)).1
      (by norm_num [calculateAverage])⟩

end LighthouseTool
